import Mathlib

/-!
Verification of the cache-with-fallback layer and the read-through item
listing of the items CRUD API.

The development has two layers, both shallow embeddings of the JavaScript
source:

* `ItemsApi.CacheA`: the four operations of `backend/src/utils/cache.js`
  (`getCache`, `setCache`, `invalidateCache`, `clearCache`).  The remote
  (Redis) tier is external, so every awaited remote call is passed in as an
  explicit outcome (`Except String _`): `.ok` models a normal completion,
  `.error` a thrown transport error.  `JSON.parse` / `JSON.stringify` are
  likewise passed in as fallible (de)serialization outcomes.  Each operation
  is written as a `Core` function returning `Except` (the body of the JS
  `try` block) wrapped by a total function modelling the `catch` clause.
  Inside the `redisAvailable` branch the in-process `memoryCache` is never
  mutated, so modelling the `catch` as returning the incoming map is exact.

* `ItemsApi.Routes`: the Express router of `backend/src/routes/items.js`
  (GET /, POST /, PUT /:id, DELETE /:id), over a system state holding the
  file-backed item store and both cache tiers.  The remote tier is
  instantiated as an error-free key/value store whose JSON round-trip is the
  identity; handlers additionally emit a trace of cache/store effects.

Machine integers are modelled as `Int`/`Nat` (JS ids, limits and timestamps
are small integers, far from any floating-point rounding boundary).
-/

namespace ItemsApi

/-- JavaScript `s.endsWith(t)` / the `key.endsWith("*")` test. -/
def strEndsWith (s t : String) : Bool := decide (t.toList <:+ s.toList)

/-- JavaScript `s.startsWith(t)` (`k.startsWith(prefix)` in `invalidateCache`). -/
def strStartsWith (s t : String) : Bool := decide (t.toList <+: s.toList)

/-- JavaScript `s.includes(t)` (substring containment). -/
def strContains (s t : String) : Bool := decide (t.toList <:+: s.toList)

/-- JavaScript `key.slice(0, -1)`: the key without its final character. -/
def strDropLast (s : String) : String := String.mk s.toList.dropLast

/-- JavaScript `s.trim()`: strip leading and trailing whitespace. -/
def jsTrim (s : String) : String :=
  String.mk
    (((s.toList.dropWhile Char.isWhitespace).reverse.dropWhile
        Char.isWhitespace).reverse)

/-- JavaScript `s.toLowerCase()` (ASCII case folding). -/
def jsToLower (s : String) : String := String.mk (s.toList.map Char.toLower)

/-- One entry of the in-process `memoryCache`: the stored value together with
its absolute expiry timestamp (milliseconds), as built by `setCache`. -/
structure MemEntry (α : Type) where
  value : α
  expiry : Nat
  deriving DecidableEq

/-- The in-process `memoryCache : Map` of `cache.js`, as an association list
from keys to entries. -/
abbrev Mem (α : Type) := List (String × MemEntry α)

/-- `Map.prototype.set`: overwrite the value of an existing key in place,
otherwise append the new binding (JS Maps preserve insertion order). -/
def assocSet {β : Type} (m : List (String × β)) (k : String) (v : β) :
    List (String × β) :=
  if m.any (fun p => p.1 == k) then
    m.map (fun p => cond (p.1 == k) (k, v) p)
  else
    m ++ [(k, v)]

/-- `Map.prototype.delete` (a no-op when the key is absent). -/
def assocDel {β : Type} (m : List (String × β)) (k : String) :
    List (String × β) :=
  m.filter (fun p => p.1 != k)

/-- Outcome of an awaited remote (Redis) call or of `JSON.parse` /
`JSON.stringify`: a value, or a thrown error carrying its message. -/
abbrev ROut (α : Type) := Except String α

/-- `try` body of `getCache` (cache.js lines 38-51).  `avail` is
`redisAvailable && client`; `remoteGet` the outcome of `client.get(key)`
(`.ok none` when Redis returns `null`); `deser` the behaviour of
`JSON.parse`.  An empty reply string is falsy, so it yields `null` without
being parsed. -/
def getCacheCore {α : Type} (avail : Bool) (remoteGet : ROut (Option String))
    (deser : String → ROut α) (m : Mem α) (now : Nat) (key : String) :
    ROut (Option α × Mem α) :=
  if avail then
    match remoteGet with
    | .error e => .error e
    | .ok none => .ok (none, m)
    | .ok (some s) =>
      if s = "" then .ok (none, m)
      else
        match deser s with
        | .error e => .error e
        | .ok v => .ok (some v, m)
  else
    match List.lookup key m with
    | some e =>
      if now < e.expiry then .ok (some e.value, m)
      else .ok (none, assocDel m key)
    | none => .ok (none, assocDel m key)

/-- `getCache` with its `catch`: a thrown error is logged and the call
returns `null` with the memory map untouched (cache.js lines 52-55). -/
def getCache {α : Type} (avail : Bool) (remoteGet : ROut (Option String))
    (deser : String → ROut α) (m : Mem α) (now : Nat) (key : String) :
    Option α × Mem α :=
  match getCacheCore avail remoteGet deser m now key with
  | .ok r => r
  | .error _ => (none, m)

/-- `try` body of `setCache` (cache.js lines 64-74): when the primary is
available, `JSON.stringify` the value (`ser`) and `client.setEx` it
(`remoteSet`); otherwise write the memory map with
`expiry = Date.now() + ttl * 1000`. -/
def setCacheCore {α : Type} (avail : Bool) (ser : ROut String)
    (remoteSet : String → ROut Unit) (m : Mem α) (now : Nat) (key : String)
    (value : α) (ttl : Nat) : ROut (Mem α) :=
  if avail then
    match ser with
    | .error e => .error e
    | .ok s =>
      match remoteSet s with
      | .error e => .error e
      | .ok _ => .ok m
  else
    .ok (assocSet m key ⟨value, now + ttl * 1000⟩)

/-- `setCache` with its `catch`: a thrown error is logged and swallowed,
leaving the memory map as it was (cache.js lines 75-77). -/
def setCache {α : Type} (avail : Bool) (ser : ROut String)
    (remoteSet : String → ROut Unit) (m : Mem α) (now : Nat) (key : String)
    (value : α) (ttl : Nat) : Mem α :=
  match setCacheCore avail ser remoteSet m now key value ttl with
  | .ok m1 => m1
  | .error _ => m

/-- `try` body of `invalidateCache` (cache.js lines 84-109).  On the primary:
a trailing-`*` key is passed as a pattern to `client.keys` (`remoteKeys`) and
the matches deleted in one `client.del` batch (`remoteDel`); a plain key is
deleted directly.  On the memory tier: a trailing-`*` key removes every
entry whose key starts with `key.slice(0, -1)`; a plain key is deleted. -/
def invalidateCacheCore {α : Type} (avail : Bool)
    (remoteKeys : ROut (List String)) (remoteDel : ROut Unit) (m : Mem α)
    (key : String) : ROut (Mem α) :=
  if avail then
    if strEndsWith key "*" then
      match remoteKeys with
      | .error e => .error e
      | .ok keys =>
        if keys.length > 0 then
          match remoteDel with
          | .error e => .error e
          | .ok _ => .ok m
        else .ok m
    else
      match remoteDel with
      | .error e => .error e
      | .ok _ => .ok m
  else
    if strEndsWith key "*" then
      .ok (m.filter (fun p => !(strStartsWith p.1 (strDropLast key))))
    else
      .ok (assocDel m key)

/-- `invalidateCache` with its `catch` (cache.js lines 110-112). -/
def invalidateCache {α : Type} (avail : Bool)
    (remoteKeys : ROut (List String)) (remoteDel : ROut Unit) (m : Mem α)
    (key : String) : Mem α :=
  match invalidateCacheCore avail remoteKeys remoteDel m key with
  | .ok m1 => m1
  | .error _ => m

/-- `try` body of `clearCache` (cache.js lines 118-124): `client.flushDb`
on the primary, `memoryCache.clear()` otherwise. -/
def clearCacheCore {α : Type} (avail : Bool) (remoteFlush : ROut Unit)
    (m : Mem α) : ROut (Mem α) :=
  if avail then
    match remoteFlush with
    | .error e => .error e
    | .ok _ => .ok m
  else
    .ok []

/-- `clearCache` with its `catch` (cache.js lines 125-127). -/
def clearCache {α : Type} (avail : Bool) (remoteFlush : ROut Unit)
    (m : Mem α) : Mem α :=
  match clearCacheCore avail remoteFlush m with
  | .ok m1 => m1
  | .error _ => m

theorem lookup_assocSet_self {β : Type} (m : List (String × β)) (k : String)
    (v : β) : List.lookup k (assocSet m k v) = some v := by
  unfold assocSet
  split
  next hany =>
    induction m with
    | nil => simp at hany
    | cons p rest ih =>
      cases hb : (p.1 == k) with
      | true => simp [List.lookup, hb]
      | false =>
        have hpk : p.1 ≠ k := by simpa using hb
        have hany2 : rest.any (fun q => q.1 == k) = true := by
          simpa [List.any_cons, hb] using hany
        have hkp : (k == p.1) = false := by
          simpa using Ne.symm hpk
        simpa [List.lookup, hb, hkp] using ih hany2
  next hany =>
    induction m with
    | nil => simp [List.lookup]
    | cons p rest ih =>
      cases hb : (p.1 == k) with
      | true => exact absurd (by simp [List.any_cons, hb]) hany
      | false =>
        have hpk : p.1 ≠ k := by simpa using hb
        have hkp : (k == p.1) = false := by
          simpa using Ne.symm hpk
        have hany2 : ¬ rest.any (fun q => q.1 == k) = true := by
          simpa [List.any_cons, hb] using hany
        simpa [List.lookup, hkp] using ih hany2

theorem mem_assocSet {β : Type} {m : List (String × β)} {k : String} {v : β}
    {p : String × β} (hp : p ∈ assocSet m k v) : p = (k, v) ∨ p ∈ m := by
  unfold assocSet at hp
  split at hp
  · rcases List.mem_map.mp hp with ⟨q, hq, hfq⟩
    cases hb : (q.1 == k) with
    | true => left; rw [← hfq]; simp [hb]
    | false => right; rw [← hfq]; simpa [hb] using hq
  · rcases List.mem_append.mp hp with h | h
    · right; exact h
    · left; simpa using h

theorem lookup_assocDel_self {β : Type} (m : List (String × β)) (k : String) :
    List.lookup k (assocDel m k) = none := by
  induction m with
  | nil => rfl
  | cons p rest ih =>
    cases hb : (p.1 == k) with
    | true =>
      have hbne : (p.1 != k) = false := by simp [bne, hb]
      simp only [assocDel, List.filter, hbne] at ih ⊢
      exact ih
    | false =>
      have hbne : (p.1 != k) = true := by simp [bne, hb]
      have hkp : (k == p.1) = false := by
        have h1 : p.1 ≠ k := by simpa using hb
        simpa using Ne.symm h1
      simp only [assocDel, List.filter, hbne] at ih ⊢
      simp only [List.lookup, hkp]
      exact ih

theorem mem_assocDel {β : Type} {m : List (String × β)} {k : String}
    {p : String × β} (hp : p ∈ assocDel m k) : p ∈ m :=
  List.mem_of_mem_filter hp

/-- C5: on the memory tier (primary unavailable), `set(k, v, ttl)` followed by
`get(k)` strictly before `now + ttl*1000` returns `v` and leaves the map
unchanged; from `ttl` seconds onwards `get(k)` returns absent and removes the
entry, so an expired entry is never returned and is deleted on the next
read. -/
theorem C5_ttl_expiry {α : Type} (m : Mem α) (k : String) (v : α)
    (ttl now now2 : Nat) (ser : ROut String) (rs : String → ROut Unit)
    (rg : ROut (Option String)) (ds : String → ROut α) :
    (now2 < now + ttl * 1000 →
      getCache false rg ds (setCache false ser rs m now k v ttl) now2 k
        = (some v, setCache false ser rs m now k v ttl)) ∧
    (now + ttl * 1000 ≤ now2 →
      getCache false rg ds (setCache false ser rs m now k v ttl) now2 k
        = (none, assocDel (setCache false ser rs m now k v ttl) k) ∧
      List.lookup k
        (getCache false rg ds (setCache false ser rs m now k v ttl) now2 k).2
        = none) := by
  have hset : setCache false ser rs m now k v ttl
      = assocSet m k ⟨v, now + ttl * 1000⟩ := rfl
  constructor
  · intro h
    simp [getCache, getCacheCore, hset, lookup_assocSet_self, h]
  · intro h
    have hnot : ¬ now2 < now + ttl * 1000 := by omega
    refine ⟨?_, ?_⟩
    · simp [getCache, getCacheCore, hset, lookup_assocSet_self, hnot]
    · simp [getCache, getCacheCore, hset, lookup_assocSet_self, hnot,
        lookup_assocDel_self]

theorem C5_ttl_expiry_witness :
    (getCache false (.error "") (fun _ => .error "")
        (setCache (α := Nat) false (.error "") (fun _ => .error "")
          [] 1000 "items::a" 7 60) 2000 "items::a"
      = (some 7,
         setCache (α := Nat) false (.error "") (fun _ => .error "")
           [] 1000 "items::a" 7 60)) ∧
    (getCache false (.error "") (fun _ => .error "")
        (setCache (α := Nat) false (.error "") (fun _ => .error "")
          [] 1000 "items::a" 7 60) 61000 "items::a"
      = (none,
         assocDel (setCache (α := Nat) false (.error "") (fun _ => .error "")
           [] 1000 "items::a" 7 60) "items::a")) :=
  ⟨(C5_ttl_expiry [] "items::a" 7 60 1000 2000 (.error "") (fun _ => .error "")
      (.error "") (fun _ => .error "")).1 (by decide),
   ((C5_ttl_expiry [] "items::a" 7 60 1000 61000 (.error "") (fun _ => .error "")
      (.error "") (fun _ => .error "")).2 (by decide)).1⟩

/-- C7: with the primary tier in use, every transport or deserialization
error thrown by a remote call is absorbed by the `catch` of the respective
operation: `get` returns absent with the memory map untouched (identical to
a remote miss), `set`, `invalidate` and `clear` leave the memory map exactly
as a successful call on the primary would, and no operation returns an error
value (each is a total function into plain results). -/
theorem C7_errors_absorbed {α : Type} (m : Mem α) (now ttl : Nat)
    (key s : String) (v : α) (e : String) (ds : String → ROut α)
    (rs : String → ROut Unit) (rk : ROut (List String)) (rd : ROut Unit) :
    (getCache true (.error e) ds m now key = (none, m)) ∧
    (∀ e2, ds s = .error e2 →
      getCache true (.ok (some s)) ds m now key = (none, m)) ∧
    (getCache true (.error e) ds m now key
      = getCache true (.ok none) ds m now key) ∧
    (setCache true (.error e) rs m now key v ttl = m) ∧
    (∀ s2 e2, rs s2 = .error e2 →
      setCache true (.ok s2) rs m now key v ttl = m) ∧
    (invalidateCache true rk rd m key = m) ∧
    (clearCache true (.error e) m = m) := by
  refine ⟨?_, ?_, ?_, ?_, ?_, ?_, ?_⟩
  · simp [getCache, getCacheCore]
  · intro e2 h
    by_cases hs : s = ""
    · simp [getCache, getCacheCore, hs]
    · simp [getCache, getCacheCore, hs, h]
  · simp [getCache, getCacheCore]
  · simp [setCache, setCacheCore]
  · intro s2 e2 h
    simp [setCache, setCacheCore, h]
  · unfold invalidateCache invalidateCacheCore
    cases hw : strEndsWith key "*" with
    | true =>
      cases rk with
      | error e3 => simp
      | ok keys =>
        by_cases hk : keys.length > 0
        · cases rd with
          | error e3 => simp [hk]
          | ok u => simp [hk]
        · simp [hk]
    | false =>
      cases rd with
      | error e3 => simp
      | ok u => simp
  · simp [clearCache, clearCacheCore]

theorem C7_errors_absorbed_witness :
    (getCache true (.error "ECONNRESET") (fun _ => .error "bad json")
        ([("items::a", ⟨3, 99⟩)] : Mem Nat) 5 "items::a"
      = (none, [("items::a", ⟨3, 99⟩)])) ∧
    (getCache true (.ok (some "x")) (fun _ => .error "bad json")
        ([("items::a", ⟨3, 99⟩)] : Mem Nat) 5 "items::a"
      = (none, [("items::a", ⟨3, 99⟩)])) ∧
    (setCache true (.ok "x") (fun _ => .error "ECONNRESET")
        ([("items::a", ⟨3, 99⟩)] : Mem Nat) 5 "k" 7 60
      = [("items::a", ⟨3, 99⟩)]) ∧
    (invalidateCache true (.error "ECONNRESET") (.ok ())
        ([("items::a", ⟨3, 99⟩)] : Mem Nat) "items::*"
      = [("items::a", ⟨3, 99⟩)]) ∧
    (clearCache true (.error "ECONNRESET") ([("items::a", ⟨3, 99⟩)] : Mem Nat)
      = [("items::a", ⟨3, 99⟩)]) :=
  ⟨(C7_errors_absorbed [("items::a", ⟨3, 99⟩)] 5 60 "items::a" "x" 7
      "ECONNRESET" (fun _ => .error "bad json") (fun _ => .error "ECONNRESET")
      (.error "ECONNRESET") (.ok ())).1,
   (C7_errors_absorbed [("items::a", ⟨3, 99⟩)] 5 60 "items::a" "x" 7
      "ECONNRESET" (fun _ => .error "bad json") (fun _ => .error "ECONNRESET")
      (.error "ECONNRESET") (.ok ())).2.1 "bad json" rfl,
   (C7_errors_absorbed [("items::a", ⟨3, 99⟩)] 5 60 "k" "x" 7
      "ECONNRESET" (fun _ => .error "bad json") (fun _ => .error "ECONNRESET")
      (.error "ECONNRESET") (.ok ())).2.2.2.2.1 "x" "ECONNRESET" rfl,
   (C7_errors_absorbed [("items::a", ⟨3, 99⟩)] 5 60 "items::*" "x" 7
      "ECONNRESET" (fun _ => .error "bad json") (fun _ => .error "ECONNRESET")
      (.error "ECONNRESET") (.ok ())).2.2.2.2.2.1,
   (C7_errors_absorbed [("items::a", ⟨3, 99⟩)] 5 60 "items::a" "x" 7
      "ECONNRESET" (fun _ => .error "bad json") (fun _ => .error "ECONNRESET")
      (.error "ECONNRESET") (.ok ())).2.2.2.2.2.2⟩

/-- C2 counterexample: the primary tier is available (`avail = true`),
serialization succeeds, and the remote `setEx` throws.  The claim asserts
the entry is additionally written to the in-process map with expiry
`now + ttl*1000`; in fact `setCache` only logs and the memory map stays
empty. -/
theorem C2_counterexample :
    setCache (α := Nat) true (.ok "7") (fun _ => .error "ECONNRESET")
      [] 5 "items::a" 7 60 = [] := rfl

/-- C2 amended: when the primary tier is available and the remote write
fails (either `JSON.stringify` or `client.setEx` throwing), `setCache` logs
the error and returns with the in-process memory map unchanged — the write
is lost rather than falling back to the memory tier. -/
theorem C2_set_failure_drops_write {α : Type} (m : Mem α) (now ttl : Nat)
    (key : String) (v : α) (ser : ROut String) (rs : String → ROut Unit) :
    (∀ e, ser = .error e → setCache true ser rs m now key v ttl = m) ∧
    (∀ s e, ser = .ok s → rs s = .error e →
      setCache true ser rs m now key v ttl = m) := by
  constructor
  · intro e h
    simp [setCache, setCacheCore, h]
  · intro s e hs h
    simp [setCache, setCacheCore, hs, h]

theorem C2_set_failure_drops_write_witness :
    setCache (α := Nat) true (.ok "x") (fun _ => .error "ECONNRESET")
      [("other::b", ⟨1, 2⟩)] 5 "items::a" 7 60 = [("other::b", ⟨1, 2⟩)] :=
  (C2_set_failure_drops_write [("other::b", ⟨1, 2⟩)] 5 60 "items::a" 7
      (.ok "x") (fun _ => .error "ECONNRESET")).2 "x" "ECONNRESET" rfl rfl

/-- C3 counterexample: the primary tier is available, the in-process map
holds the entry `"items::a"`, and `invalidate("items::*")` completes on the
remote tier.  The claim asserts the memory map is purged of the matching
entry as well; in fact the memory map is untouched. -/
theorem C3_counterexample :
    invalidateCache (α := Nat) true (.ok ["items::a"]) (.ok ())
      [("items::a", ⟨1, 100⟩)] "items::*" = [("items::a", ⟨1, 100⟩)] := by
  simp [invalidateCache, invalidateCacheCore,
    show strEndsWith "items::*" "*" = true from by decide]

/-- C3 amended: a wildcard `invalidate(p ++ "*")` purges matching entries
from the in-process map only when the primary tier is unavailable; when the
primary tier is available only remote keys are deleted and the memory map is
left exactly as it was. -/
theorem C3_wildcard_memory_scope {α : Type} (m : Mem α) (key : String)
    (rk : ROut (List String)) (rd : ROut Unit)
    (hw : strEndsWith key "*" = true) :
    invalidateCache true rk rd m key = m ∧
    ∀ p ∈ invalidateCache false rk rd m key,
      strStartsWith p.1 (strDropLast key) = false := by
  constructor
  · unfold invalidateCache invalidateCacheCore
    cases rk with
    | error e => simp [hw]
    | ok keys =>
      by_cases hk : keys.length > 0
      · cases rd with
        | error e => simp [hw, hk]
        | ok u => simp [hw, hk]
      · simp [hw, hk]
  · intro p hp
    unfold invalidateCache invalidateCacheCore at hp
    have h2 : p ∈ m ∧ strStartsWith p.1 (strDropLast key) = false := by
      simpa [hw] using hp
    exact h2.2

theorem C3_wildcard_memory_scope_witness :
    (invalidateCache (α := Nat) true (.ok []) (.ok ())
        [("items::a", ⟨1, 2⟩)] "items::*" = [("items::a", ⟨1, 2⟩)]) ∧
    (∀ p ∈ invalidateCache (α := Nat) false (.ok []) (.ok ())
        [("items::a", ⟨1, 2⟩)] "items::*",
      strStartsWith p.1 (strDropLast "items::*") = false) :=
  C3_wildcard_memory_scope [("items::a", ⟨1, 2⟩)] "items::*" (.ok []) (.ok ())
    (by decide)

/-! ### Route layer: backend/src/routes/items.js

The remote tier is instantiated as an error-free key/value store from keys
to responses (the JSON round-trip `JSON.parse ∘ JSON.stringify` is the
identity on these records, and Redis-managed expiry of remote entries is
not modelled).  A request's query parameters are a function of its URL
(`qp : String → Query`), reflecting that Express derives `req.query`
deterministically from `req.originalUrl`. -/

/-- ECMAScript whitespace accepted by `parseInt` (the ASCII cases). -/
def jsWhitespace (c : Char) : Bool :=
  c == ' ' || c == '\t' || c == '\n' || c == '\r' || c == '\x0b' || c == '\x0c'

/-- Numeric value of a (possibly hexadecimal) digit character. -/
def hexDigitVal (c : Char) : Option Nat :=
  if c.isDigit then some (c.toNat - 48)
  else if decide ('a' ≤ c) && decide (c ≤ 'f') then some (c.toNat - 87)
  else if decide ('A' ≤ c) && decide (c ≤ 'F') then some (c.toNat - 55)
  else none

/-- Interpret the longest prefix of digits of radix `r`; `none` when the
first character is not such a digit (`parseInt` yields `NaN`). -/
def parseRadix (r : Nat) (l : List Char) : Option Nat :=
  let ds := l.takeWhile (fun c => (hexDigitVal c).elim false (fun d => decide (d < r)))
  if ds.isEmpty then none
  else some (ds.foldl (fun a c => r * a + (hexDigitVal c).getD 0) 0)

/-- Digits part of `parseInt` after the optional sign: a `0x`/`0X` lead-in
switches to hexadecimal, otherwise the number is decimal. -/
def jsParseUnsigned (l : List Char) : Option Nat :=
  match l with
  | '0' :: c :: rest =>
    if c == 'x' || c == 'X' then parseRadix 16 rest
    else parseRadix 10 ('0' :: c :: rest)
  | _ => parseRadix 10 l

/-- JavaScript `parseInt(s)` with no radix argument: skip leading
whitespace, read an optional sign, then the digits; `none` models `NaN`. -/
def jsParseInt (s : String) : Option Int :=
  match s.toList.dropWhile jsWhitespace with
  | '-' :: rest => (jsParseUnsigned rest).map (fun n => -(n : Int))
  | '+' :: rest => (jsParseUnsigned rest).map (fun n => (n : Int))
  | rest => (jsParseUnsigned rest).map (fun n => (n : Int))

/-- An item record as stored in `data/items.json` and served by the API:
`{id, name, category, price, createdAt, updatedAt}` with nullable
`category`, `price` and `updatedAt`. -/
structure Item where
  id : Int
  name : String
  category : Option String
  price : Option Rat
  createdAt : String
  updatedAt : Option String
  deriving DecidableEq

/-- The 200 response body of GET /api/items:
`{items, total, timestamp}`. -/
structure Response where
  items : List Item
  total : Nat
  timestamp : String
  deriving DecidableEq

/-- The two query parameters the listing route reads from `req.query`
(`const { limit, q } = req.query`); `none` is an absent parameter. -/
structure Query where
  q : Option String
  limit : Option String
  deriving DecidableEq

/-- A structured HTTP error: status code and machine-readable `error.code`,
as attached to thrown errors by the route handlers. -/
structure ApiError where
  status : Nat
  code : String
  deriving DecidableEq

deriving instance DecidableEq for Except

/-- Search-filter predicate of the listing route (lines 164-171):
name, or non-null non-empty category, contains the term (already trimmed
and lower-cased) as a substring after lower-casing. -/
def matchesSearch (term : String) (it : Item) : Bool :=
  strContains (jsToLower it.name) term ||
    (match it.category with
     | some c => c != "" && strContains (jsToLower c) term
     | none => false)

/-- `if (q && q.trim())` guard plus the filter application. -/
def searchFilter (q : Option String) (data : List Item) : List Item :=
  match q with
  | some qs =>
    if qs ≠ "" ∧ jsTrim qs ≠ "" then
      data.filter (matchesSearch (jsToLower (jsTrim qs)))
    else data
  | none => data

/-- The pure part of the GET / handler on a cache miss (lines 160-189):
search filter, then limit validation (`if (limit)` skips a falsy empty
string; `parseInt` yielding `NaN` or a value `< 1` raises
`INVALID_LIMIT`), truncation by `slice(0, limitNum)`, and the response
object with `total: results.length` computed after truncation. -/
def listItems (query : Query) (data : List Item) (ts : String) :
    Except ApiError Response :=
  let results := searchFilter query.q data
  match query.limit with
  | some l =>
    if l ≠ "" then
      match jsParseInt l with
      | none => .error ⟨400, "INVALID_LIMIT"⟩
      | some n =>
        if n < 1 then .error ⟨400, "INVALID_LIMIT"⟩
        else
          let res2 := results.take n.toNat
          .ok ⟨res2, res2.length, ts⟩
    else .ok ⟨results, results.length, ts⟩
  | none => .ok ⟨results, results.length, ts⟩

/-- Default TTL of `cache.js` (`CACHE_TTL = 60` seconds), used by the
listing route's write-back (`setCache(cacheKey, response)`). -/
def CACHE_TTL : Nat := 60

/-- Both cache tiers as seen by the route layer: the availability flag, the
remote keyspace (error-free, storing responses directly), and the in-process
memory map. -/
structure SysCache where
  avail : Bool
  remote : List (String × Response)
  mem : Mem Response
  deriving DecidableEq

/-- `getCache` specialised to the route layer (cache.js lines 38-56):
remote lookup when available, otherwise the memory map with lazy expiry. -/
def cacheGetB (c : SysCache) (now : Nat) (key : String) :
    Option Response × SysCache :=
  if c.avail then (List.lookup key c.remote, c)
  else
    match List.lookup key c.mem with
    | some e =>
      if now < e.expiry then (some e.value, c)
      else (none, { c with mem := assocDel c.mem key })
    | none => (none, { c with mem := assocDel c.mem key })

/-- `setCache` specialised to the route layer (cache.js lines 64-78). -/
def cacheSetB (c : SysCache) (now : Nat) (key : String) (v : Response)
    (ttl : Nat) : SysCache :=
  if c.avail then { c with remote := assocSet c.remote key v }
  else { c with mem := assocSet c.mem key ⟨v, now + ttl * 1000⟩ }

/-- `invalidateCache` specialised to the route layer (cache.js lines
84-113).  A trailing-`*` key acts on the tier in use as a literal-prefix
wildcard (`client.keys(pattern)` + batch `del` on the remote; a
`startsWith` scan on the memory map); the prefix `"items::"` used by the
routes contains no other glob metacharacters.  The outcome of each awaited
remote call is passed in: `rkOk` says whether `client.keys` completes
(returning exactly the keys matching the pattern), `rdOk` whether
`client.del` completes; a thrown transport error is caught after logging,
leaving the keyspace unchanged (`keys` and a batch `del` fail without
partial deletion).  The memory branch cannot throw. -/
def cacheInvalidateB (rkOk rdOk : Bool) (c : SysCache) (key : String) :
    SysCache :=
  if c.avail then
    if strEndsWith key "*" then
      if rkOk then
        if (c.remote.filter
            (fun p => strStartsWith p.1 (strDropLast key))).length > 0 then
          if rdOk then
            { c with
              remote := c.remote.filter
                (fun p => !(strStartsWith p.1 (strDropLast key))) }
          else c
        else c
      else c
    else
      if rdOk then { c with remote := assocDel c.remote key } else c
  else
    if strEndsWith key "*" then
      { c with
        mem := c.mem.filter
          (fun p => !(strStartsWith p.1 (strDropLast key))) }
    else { c with mem := assocDel c.mem key }

/-- Observable side effects of a request, in order of occurrence. -/
inductive Effect where
  | cacheRead (key : String)
  | cacheWrite (key : String)
  | cacheInval (key : String)
  | storeRead
  | storeWrite
  deriving DecidableEq

/-- System state: the file-backed item collection (`none` when
`data/items.json` is absent, making `readItemsData` fail with 404) and the
cache tiers. -/
structure Sys where
  store : Option (List Item)
  cache : SysCache
  deriving DecidableEq

/-- Outcome of a request at the HTTP boundary. -/
inductive Out where
  | listOk (r : Response)
  | created (it : Item)
  | updated (it : Item)
  | deleted (it : Item)
  | fail (e : ApiError)
  deriving DecidableEq

/-- GET /api/items (lines 143-205): derive the cache key from the full
original URL, try the cache first and return a hit unchanged; on a miss
read the store, compute the listing, write it back with the default TTL and
return it.  Validation of `limit` happens only inside the miss path, after
the store read. -/
def handleGet (qp : String → Query) (s : Sys) (url : String) (now : Nat)
    (ts : String) : Out × Sys × List Effect :=
  match cacheGetB s.cache now ("items::" ++ url) with
  | (some resp, c1) =>
    (.listOk resp, { s with cache := c1 }, [.cacheRead ("items::" ++ url)])
  | (none, c1) =>
    match s.store with
    | none =>
      (.fail ⟨404, "DATA_READ_ERROR"⟩, { s with cache := c1 },
        [.cacheRead ("items::" ++ url), .storeRead])
    | some data =>
      match listItems (qp url) data ts with
      | .error e =>
        (.fail e, { s with cache := c1 },
          [.cacheRead ("items::" ++ url), .storeRead])
      | .ok resp =>
        (.listOk resp,
          { s with
            cache := cacheSetB c1 now ("items::" ++ url) resp CACHE_TTL },
          [.cacheRead ("items::" ++ url), .storeRead,
            .cacheWrite ("items::" ++ url)])

/-- Request body of POST /api/items: the three destructured fields plus
whether the body object carries any other key (they count for the
`Object.keys(req.body).length === 0` emptiness test but are otherwise
ignored). -/
structure PostBody where
  name : Option String
  category : Option String
  price : Option Rat
  hasOtherKeys : Bool

/-- `!req.body || Object.keys(req.body).length === 0`. -/
def PostBody.isEmptyBody (b : PostBody) : Bool :=
  b.name.isNone && b.category.isNone && b.price.isNone && !b.hasOtherKeys

/-- `category ? category.trim() : null` (absent, null or empty string are
falsy). -/
def jsCategory (c : Option String) : Option String :=
  match c with
  | some s => if s = "" then none else some (jsTrim s)
  | none => none

/-- `price ? parseFloat(price) : null`: a numeric body value passes through
`parseFloat` unchanged, and `0` is falsy, yielding `null`. -/
def jsPrice (p : Option Rat) : Option Rat :=
  match p with
  | some x => if x = 0 then none else some x
  | none => none

/-- POST /api/items (lines 345-393): validate the body, read the store,
allocate `max(ids, 0) + 1` as the id, append the new item, persist, then
`invalidateCache("items::*")` and answer 201 with the item. -/
def handlePost (rkOk rdOk : Bool) (s : Sys) (b : PostBody) (ts : String) :
    Out × Sys × List Effect :=
  if b.isEmptyBody then (.fail ⟨400, "INVALID_ITEM_DATA"⟩, s, [])
  else
    match b.name with
    | none => (.fail ⟨400, "MISSING_NAME"⟩, s, [])
    | some nm =>
      if jsTrim nm = "" then (.fail ⟨400, "MISSING_NAME"⟩, s, [])
      else
        match s.store with
        | none => (.fail ⟨404, "DATA_READ_ERROR"⟩, s, [.storeRead])
        | some data =>
          let newId := (data.map (fun it => it.id)).foldl max 0 + 1
          let newItem : Item :=
            ⟨newId, jsTrim nm, jsCategory b.category, jsPrice b.price, ts, none⟩
          let data2 := data ++ [newItem]
          (.created newItem,
            ⟨some data2, cacheInvalidateB rkOk rdOk s.cache "items::*"⟩,
            [.storeRead, .storeWrite, .cacheInval "items::*"])

/-- Request body of PUT /api/items/:id: any subset of the item fields may be
present (a present field overwrites by spread), plus whether other keys are
present for the emptiness test. -/
structure UpdateBody where
  id : Option Int
  name : Option String
  category : Option String
  price : Option Rat
  createdAt : Option String
  updatedAt : Option String
  hasOtherKeys : Bool

/-- `!updateData || Object.keys(updateData).length === 0`. -/
def UpdateBody.isEmptyBody (b : UpdateBody) : Bool :=
  b.id.isNone && b.name.isNone && b.category.isNone && b.price.isNone &&
    b.createdAt.isNone && b.updatedAt.isNone && !b.hasOtherKeys

/-- `{ ...data[itemIndex], ...updateData, updatedAt: new Date().toISOString() }`
specialised to the item schema: each field present in the body overwrites the
stored one, and `updatedAt` is regenerated last. -/
def mergeItem (old : Item) (b : UpdateBody) (ts : String) : Item :=
  { id := b.id.getD old.id
    name := b.name.getD old.name
    category := match b.category with | some c => some c | none => old.category
    price := match b.price with | some p => some p | none => old.price
    createdAt := b.createdAt.getD old.createdAt
    updatedAt := some ts }

/-- `findIndex` on the id plus in-place replacement `data[itemIndex] = u`:
returns the updated item and the updated collection, or `none` when no item
has the id. -/
def updateFirst (i : Int) (f : Item → Item) : List Item → Option (Item × List Item)
  | [] => none
  | it :: rest =>
    if it.id == i then some (f it, f it :: rest)
    else
      match updateFirst i f rest with
      | some (u, l) => some (u, it :: l)
      | none => none

/-- `findIndex` on the id plus `splice(itemIndex, 1)`: returns the removed
item and the remaining collection, or `none` when no item has the id. -/
def removeFirst (i : Int) : List Item → Option (Item × List Item)
  | [] => none
  | it :: rest =>
    if it.id == i then some (it, rest)
    else
      match removeFirst i rest with
      | some (d, l) => some (d, it :: l)
      | none => none

/-- PUT /api/items/:id (lines 460-515): validate the id (`parseInt`, `NaN`
or `< 1` rejected), reject an empty body, read the store, merge by spread
with `updatedAt` regenerated, persist, then `invalidateCache("items::*")`
and answer with the updated item. -/
def handlePut (rkOk rdOk : Bool) (s : Sys) (idStr : String) (b : UpdateBody)
    (ts : String) : Out × Sys × List Effect :=
  match jsParseInt idStr with
  | none => (.fail ⟨400, "INVALID_ID"⟩, s, [])
  | some i =>
    if i < 1 then (.fail ⟨400, "INVALID_ID"⟩, s, [])
    else if b.isEmptyBody then (.fail ⟨400, "INVALID_UPDATE_DATA"⟩, s, [])
    else
      match s.store with
      | none => (.fail ⟨404, "DATA_READ_ERROR"⟩, s, [.storeRead])
      | some data =>
        match updateFirst i (fun old => mergeItem old b ts) data with
        | none => (.fail ⟨404, "ITEM_NOT_FOUND"⟩, s, [.storeRead])
        | some (u, data2) =>
          (.updated u,
            ⟨some data2, cacheInvalidateB rkOk rdOk s.cache "items::*"⟩,
            [.storeRead, .storeWrite, .cacheInval "items::*"])

/-- DELETE /api/items/:id (lines 570-612): validate the id, read the store,
splice the item out, persist, then `invalidateCache("items::*")` and answer
with the deleted item. -/
def handleDelete (rkOk rdOk : Bool) (s : Sys) (idStr : String)
    (_ts : String) : Out × Sys × List Effect :=
  match jsParseInt idStr with
  | none => (.fail ⟨400, "INVALID_ID"⟩, s, [])
  | some i =>
    if i < 1 then (.fail ⟨400, "INVALID_ID"⟩, s, [])
    else
      match s.store with
      | none => (.fail ⟨404, "DATA_READ_ERROR"⟩, s, [.storeRead])
      | some data =>
        match removeFirst i data with
        | none => (.fail ⟨404, "ITEM_NOT_FOUND"⟩, s, [.storeRead])
        | some (d, data2) =>
          (.deleted d,
            ⟨some data2, cacheInvalidateB rkOk rdOk s.cache "items::*"⟩,
            [.storeRead, .storeWrite, .cacheInval "items::*"])

/-- A request against the item collection, carrying the wall-clock instant
(`Date.now()`, milliseconds) and ISO timestamp at which it runs. -/
inductive Req where
  | list (url : String) (now : Nat) (ts : String)
  | create (rkOk rdOk : Bool) (b : PostBody) (ts : String)
  | update (rkOk rdOk : Bool) (idStr : String) (b : UpdateBody) (ts : String)
  | remove (rkOk rdOk : Bool) (idStr : String) (ts : String)

/-- Dispatch one request. -/
def step (qp : String → Query) (s : Sys) : Req → Out × Sys × List Effect
  | .list url now ts => handleGet qp s url now ts
  | .create rkOk rdOk b ts => handlePost rkOk rdOk s b ts
  | .update rkOk rdOk idStr b ts => handlePut rkOk rdOk s idStr b ts
  | .remove rkOk rdOk idStr ts => handleDelete rkOk rdOk s idStr ts

/-- Run a request sequence, keeping only the evolving state. -/
def run (qp : String → Query) (s : Sys) : List Req → Sys
  | [] => s
  | r :: rs => run qp (step qp s r).2.1 rs

/-- Process start: both cache tiers empty (the availability flag and the
initial contents of `data/items.json` are arbitrary). -/
def init (avail : Bool) (store0 : Option (List Item)) : Sys :=
  ⟨store0, ⟨avail, [], []⟩⟩

theorem mem_of_lookup {β : Type} {m : List (String × β)} {k : String} {v : β}
    (h : List.lookup k m = some v) : (k, v) ∈ m := by
  induction m with
  | nil => simp [List.lookup] at h
  | cons p rest ih =>
    obtain ⟨a, b⟩ := p
    cases hb : (k == a) with
    | true =>
      have hv : b = v := by simpa [List.lookup, hb] using h
      have hk : k = a := by simpa using hb
      subst hv; subst hk
      exact List.mem_cons_self _ _
    | false =>
      have h2 : List.lookup k rest = some v := by
        simpa [List.lookup, hb] using h
      exact List.mem_cons_of_mem _ (ih h2)

theorem str_append_left_cancel {a b c : String} (h : a ++ b = a ++ c) :
    b = c := by
  cases a with
  | mk as =>
    cases b with
    | mk bs =>
      cases c with
      | mk cs =>
        have h2 : String.mk (as ++ bs) = String.mk (as ++ cs) := h
        have h3 : as ++ bs = as ++ cs := by injection h2
        have h4 : bs = cs := by
          exact List.append_cancel_left h3
        rw [h4]

/-- A cached listing entry is sound: its key is the listing key of some URL
and its value is a response the listing computation produced for that URL's
query from some collection snapshot and timestamp. -/
def goodEntry (qp : String → Query) (k : String) (r : Response) : Prop :=
  ∃ url data ts, k = "items::" ++ url ∧ listItems (qp url) data ts = .ok r

/-- Invariant of the system: every entry of either cache tier is sound.
Established at `init` (both tiers empty) and preserved by every request. -/
def CacheInv (qp : String → Query) (c : SysCache) : Prop :=
  (∀ p ∈ c.remote, goodEntry qp p.1 p.2) ∧
  (∀ p ∈ c.mem, goodEntry qp p.1 p.2.value)

theorem cacheGetB_inv (qp : String → Query) {c : SysCache} {now : Nat}
    {key : String} (h : CacheInv qp c) :
    CacheInv qp (cacheGetB c now key).2 := by
  unfold cacheGetB
  by_cases ha : c.avail = true
  · simpa [ha] using h
  · cases hl : List.lookup key c.mem with
    | some e =>
      by_cases ht : now < e.expiry
      · simpa [ha, hl, ht] using h
      · refine ⟨?_, ?_⟩
        · intro p hp
          exact h.1 p (by simpa [ha, hl, ht] using hp)
        · intro p hp
          have hp2 : p ∈ assocDel c.mem key := by simpa [ha, hl, ht] using hp
          exact h.2 p (mem_assocDel hp2)
    | none =>
      refine ⟨?_, ?_⟩
      · intro p hp
        exact h.1 p (by simpa [ha, hl] using hp)
      · intro p hp
        have hp2 : p ∈ assocDel c.mem key := by simpa [ha, hl] using hp
        exact h.2 p (mem_assocDel hp2)

theorem cacheGetB_good (qp : String → Query) {c : SysCache} {now : Nat}
    {key : String} {r : Response} (h : CacheInv qp c)
    (hr : (cacheGetB c now key).1 = some r) : goodEntry qp key r := by
  unfold cacheGetB at hr
  by_cases ha : c.avail = true
  · simp [ha] at hr
    exact h.1 (key, r) (mem_of_lookup hr)
  · cases hl : List.lookup key c.mem with
    | some e =>
      by_cases ht : now < e.expiry
      · have he : e.value = r := by simpa [ha, hl, ht] using hr
        have := h.2 (key, e) (mem_of_lookup hl)
        simpa [he] using this
      · simp [ha, hl, ht] at hr
    | none => simp [ha, hl] at hr

theorem cacheSetB_inv (qp : String → Query) {c : SysCache} {now ttl : Nat}
    {key : String} {v : Response} (h : CacheInv qp c)
    (hv : goodEntry qp key v) :
    CacheInv qp (cacheSetB c now key v ttl) := by
  unfold cacheSetB
  by_cases ha : c.avail = true
  · refine ⟨?_, ?_⟩
    · intro p hp
      have hp2 : p ∈ assocSet c.remote key v := by simpa [ha] using hp
      rcases mem_assocSet hp2 with hpe | hm
      · rw [hpe]; exact hv
      · exact h.1 p hm
    · intro p hp
      exact h.2 p (by simpa [ha] using hp)
  · refine ⟨?_, ?_⟩
    · intro p hp
      exact h.1 p (by simpa [ha] using hp)
    · intro p hp
      have hp2 : p ∈ assocSet c.mem key ⟨v, now + ttl * 1000⟩ := by
        simpa [ha] using hp
      rcases mem_assocSet hp2 with hpe | hm
      · rw [hpe]; exact hv
      · exact h.2 p hm

theorem cacheInvalidateB_inv (qp : String → Query) {rkOk rdOk : Bool}
    {c : SysCache} {key : String} (h : CacheInv qp c) :
    CacheInv qp (cacheInvalidateB rkOk rdOk c key) := by
  unfold cacheInvalidateB
  by_cases ha : c.avail = true
  · by_cases hw : strEndsWith key "*" = true
    · by_cases hk : rkOk = true
      · by_cases hlen : (c.remote.filter
            (fun p => strStartsWith p.1 (strDropLast key))).length > 0
        · by_cases hd2 : rdOk = true
          · refine ⟨?_, ?_⟩
            · intro p hp
              have hp2 : p ∈ c.remote ∧
                  strStartsWith p.1 (strDropLast key) = false := by
                simpa [ha, hw, hk, hlen, hd2] using hp
              exact h.1 p hp2.1
            · intro p hp
              exact h.2 p (by simpa [ha, hw, hk, hlen, hd2] using hp)
          · refine ⟨?_, ?_⟩
            · intro p hp
              exact h.1 p (by simpa [ha, hw, hk, hlen, hd2] using hp)
            · intro p hp
              exact h.2 p (by simpa [ha, hw, hk, hlen, hd2] using hp)
        · refine ⟨?_, ?_⟩
          · intro p hp
            exact h.1 p (by simpa [ha, hw, hk, hlen] using hp)
          · intro p hp
            exact h.2 p (by simpa [ha, hw, hk, hlen] using hp)
      · refine ⟨?_, ?_⟩
        · intro p hp
          exact h.1 p (by simpa [ha, hw, hk] using hp)
        · intro p hp
          exact h.2 p (by simpa [ha, hw, hk] using hp)
    · by_cases hd2 : rdOk = true
      · refine ⟨?_, ?_⟩
        · intro p hp
          have hp2 : p ∈ assocDel c.remote key := by
            simpa [ha, hw, hd2] using hp
          exact h.1 p (mem_assocDel hp2)
        · intro p hp
          exact h.2 p (by simpa [ha, hw, hd2] using hp)
      · refine ⟨?_, ?_⟩
        · intro p hp
          exact h.1 p (by simpa [ha, hw, hd2] using hp)
        · intro p hp
          exact h.2 p (by simpa [ha, hw, hd2] using hp)
  · by_cases hw : strEndsWith key "*" = true
    · refine ⟨?_, ?_⟩
      · intro p hp
        exact h.1 p (by simpa [ha, hw] using hp)
      · intro p hp
        have hp2 : p ∈ c.mem ∧ strStartsWith p.1 (strDropLast key) = false := by
          simpa [ha, hw] using hp
        exact h.2 p hp2.1
    · refine ⟨?_, ?_⟩
      · intro p hp
        exact h.1 p (by simpa [ha, hw] using hp)
      · intro p hp
        have hp2 : p ∈ assocDel c.mem key := by simpa [ha, hw] using hp
        exact h.2 p (mem_assocDel hp2)

theorem handleGet_inv (qp : String → Query) {s : Sys} {url : String}
    {now : Nat} {ts : String} (h : CacheInv qp s.cache) :
    CacheInv qp ((handleGet qp s url now ts).2.1).cache := by
  unfold handleGet
  split
  next resp c1 heq =>
    have hc : c1 = (cacheGetB s.cache now ("items::" ++ url)).2 := by
      rw [heq]
    rw [hc]; exact cacheGetB_inv qp h
  next c1 heq =>
    have hc : c1 = (cacheGetB s.cache now ("items::" ++ url)).2 := by
      rw [heq]
    split
    next => rw [hc]; exact cacheGetB_inv qp h
    next data hst =>
      split
      next e he => rw [hc]; exact cacheGetB_inv qp h
      next resp hok =>
        rw [hc]
        exact cacheSetB_inv qp (cacheGetB_inv qp h) ⟨url, data, ts, rfl, hok⟩

theorem handlePost_inv (qp : String → Query) {rkOk rdOk : Bool} {s : Sys}
    {b : PostBody} {ts : String} (h : CacheInv qp s.cache) :
    CacheInv qp ((handlePost rkOk rdOk s b ts).2.1).cache := by
  unfold handlePost
  split
  · exact h
  · split
    · exact h
    · split
      · exact h
      · split
        · exact h
        · exact cacheInvalidateB_inv qp h

theorem handlePut_inv (qp : String → Query) {rkOk rdOk : Bool} {s : Sys}
    {idStr : String} {b : UpdateBody} {ts : String}
    (h : CacheInv qp s.cache) :
    CacheInv qp ((handlePut rkOk rdOk s idStr b ts).2.1).cache := by
  unfold handlePut
  split
  · exact h
  · split
    · exact h
    · split
      · exact h
      · split
        · exact h
        · split
          · exact h
          · exact cacheInvalidateB_inv qp h

theorem handleDelete_inv (qp : String → Query) {rkOk rdOk : Bool} {s : Sys}
    {idStr : String} {ts : String} (h : CacheInv qp s.cache) :
    CacheInv qp ((handleDelete rkOk rdOk s idStr ts).2.1).cache := by
  unfold handleDelete
  split
  · exact h
  · split
    · exact h
    · split
      · exact h
      · split
        · exact h
        · exact cacheInvalidateB_inv qp h

theorem init_inv (qp : String → Query) (b : Bool)
    (st0 : Option (List Item)) : CacheInv qp (init b st0).cache := by
  refine ⟨?_, ?_⟩ <;> intro p hp <;> simp [init] at hp

theorem step_inv (qp : String → Query) {s : Sys} (req : Req)
    (h : CacheInv qp s.cache) : CacheInv qp ((step qp s req).2.1).cache := by
  cases req with
  | list url now ts => exact handleGet_inv qp h
  | create rkOk rdOk b ts => exact handlePost_inv qp h
  | update rkOk rdOk idStr b ts => exact handlePut_inv qp h
  | remove rkOk rdOk idStr ts =>
    exact @handleDelete_inv qp rkOk rdOk s idStr ts h

theorem run_inv (qp : String → Query) (reqs : List Req) {s : Sys}
    (h : CacheInv qp s.cache) : CacheInv qp (run qp s reqs).cache := by
  induction reqs generalizing s with
  | nil => exact h
  | cons r rs ih => exact ih (step_inv qp r h)

theorem listItems_ok_total {q : Query} {data : List Item} {ts : String}
    {r : Response} (h : listItems q data ts = .ok r) :
    r.total = r.items.length := by
  unfold listItems at h
  split at h
  next l =>
    split at h
    · split at h
      next => simp at h
      next n =>
        split at h
        · simp at h
        · injection h with h2; rw [← h2]
    · injection h with h2; rw [← h2]
  next => injection h with h2; rw [← h2]

theorem listItems_bad_limit {q : Query} {l : String} (data : List Item)
    (ts : String) (hl : q.limit = some l) (hne : l ≠ "")
    (hbad : jsParseInt l = none ∨ ∃ n, jsParseInt l = some n ∧ n < 1) :
    listItems q data ts = .error ⟨400, "INVALID_LIMIT"⟩ := by
  unfold listItems
  rw [hl]
  rcases hbad with hb | ⟨n, hb, hn⟩
  · simp [hne, hb]
  · simp [hne, hb, hn]

theorem listItems_good_limit {q : Query} {l : String} {n : Int}
    (data : List Item) (ts : String) (hl : q.limit = some l)
    (hp : jsParseInt l = some n) (h1 : 1 ≤ n) :
    listItems q data ts =
      .ok ⟨(searchFilter q.q data).take n.toNat,
        ((searchFilter q.q data).take n.toNat).length, ts⟩ := by
  unfold listItems
  rw [hl]
  have hemp : jsParseInt "" = none := by decide
  have hne : l ≠ "" := by
    intro he; rw [he, hemp] at hp; cases hp
  have hn : ¬ n < 1 := by omega
  simp [hne, hp, hn]

theorem listItems_no_limit {q : Query} (data : List Item) (ts : String)
    (hl : q.limit = none) :
    listItems q data ts =
      .ok ⟨searchFilter q.q data, (searchFilter q.q data).length, ts⟩ := by
  unfold listItems
  rw [hl]

theorem listItems_ok_limit_le {q : Query} {l : String} {n : Int}
    {data : List Item} {ts : String} {r : Response} (hl : q.limit = some l)
    (hp : jsParseInt l = some n) (h : listItems q data ts = .ok r) :
    r.items.length ≤ n.toNat := by
  have hemp : jsParseInt "" = none := by decide
  have hne : l ≠ "" := by
    intro he; rw [he, hemp] at hp; cases hp
  by_cases hn : n < 1
  · rw [listItems_bad_limit data ts hl hne (Or.inr ⟨n, hp, hn⟩)] at h
    simp at h
  · rw [listItems_good_limit data ts hl hp (by omega)] at h
    injection h with h2
    rw [← h2]
    simp [List.length_take]

theorem searchFilter_some {q : String} (data : List Item) (h1 : q ≠ "")
    (h2 : jsTrim q ≠ "") :
    searchFilter (some q) data
      = data.filter (matchesSearch (jsToLower (jsTrim q))) := by
  unfold searchFilter
  simp [h1, h2]

theorem hit_listItems (qp : String → Query) {s : Sys} {url : String}
    {now : Nat} {r : Response} (hinv : CacheInv qp s.cache)
    (hr : (cacheGetB s.cache now ("items::" ++ url)).1 = some r) :
    ∃ data ts2, listItems (qp url) data ts2 = .ok r := by
  obtain ⟨url2, data, ts2, hk, hok⟩ := cacheGetB_good qp hinv hr
  have hu : url = url2 := str_append_left_cancel hk
  exact ⟨data, ts2, by rw [hu]; exact hok⟩

theorem handleGet_bad_limit (qp : String → Query) {s : Sys} {url : String}
    {now : Nat} {ts : String} {data : List Item} {l : String}
    (hinv : CacheInv qp s.cache) (hstore : s.store = some data)
    (hl : (qp url).limit = some l) (hne : l ≠ "")
    (hbad : jsParseInt l = none ∨ ∃ n, jsParseInt l = some n ∧ n < 1) :
    (handleGet qp s url now ts).1 = .fail ⟨400, "INVALID_LIMIT"⟩ ∧
    (handleGet qp s url now ts).2.2
      = [.cacheRead ("items::" ++ url), .storeRead] := by
  have hbadL : ∀ (d : List Item) (t : String),
      listItems (qp url) d t = .error ⟨400, "INVALID_LIMIT"⟩ :=
    fun d t => listItems_bad_limit d t hl hne hbad
  unfold handleGet
  split
  next resp c1 heq =>
    obtain ⟨d, t, hok⟩ := hit_listItems qp hinv (by rw [heq])
    rw [hbadL d t] at hok
    cases hok
  next c1 heq =>
    split
    next hnone => rw [hstore] at hnone; cases hnone
    next data2 hst =>
      split
      next e he =>
        have h4 : (Except.error e : Except ApiError Response)
            = .error ⟨400, "INVALID_LIMIT"⟩ := by
          rw [← he]; exact hbadL data2 ts
        have h5 : e = ⟨400, "INVALID_LIMIT"⟩ := by injection h4
        subst h5
        exact ⟨rfl, rfl⟩
      next resp hok =>
        rw [hbadL data2 ts] at hok
        cases hok

/-! Concrete fixtures used by witnesses and counterexamples. -/

/-- One item whose name contains "Laptop". -/
def itemLaptop : Item :=
  ⟨1, "Laptop Pro", some "Electronics", none, "2025-01-01", none⟩

/-- One item whose name contains "Lamp". -/
def itemLamp : Item :=
  ⟨2, "Desk Lamp", some "Furniture", none, "2025-01-01", none⟩

/-- A five-item collection with exactly one "Laptop" item. -/
def itemsFive : List Item :=
  [itemLaptop, itemLamp,
   ⟨3, "Chair", some "Furniture", none, "2025-01-01", none⟩,
   ⟨4, "Monitor", some "Electronics", none, "2025-01-01", none⟩,
   ⟨5, "Mouse", some "Electronics", none, "2025-01-01", none⟩]

/-- A concrete query-parameter assignment for the URLs the witnesses use. -/
def qpW : String → Query := fun u =>
  if u = "/api/items?limit=abc" then ⟨none, some "abc"⟩
  else if u = "/api/items?limit=2" then ⟨none, some "2"⟩
  else if u = "/api/items?limit=0" then ⟨none, some "0"⟩
  else if u = "/api/items?limit=-1" then ⟨none, some "-1"⟩
  else if u = "/api/items?q=lap" then ⟨some "lap", none⟩
  else ⟨none, none⟩

/-- C1 counterexample: from the initial state with a five-item collection, a
GET with the malformed limit "abc" performs a cache read and — the read
missing — a backing-store read before failing validation.  The claim asserts
no cache read and no backing-store read happen for such a request; the
emitted trace refutes it (the 400 INVALID_LIMIT part of the claim is what
does hold, and no cache write occurs). -/
theorem C1_counterexample :
    (handleGet qpW (init false (some itemsFive))
        "/api/items?limit=abc" 0 "T").2.2
      = [.cacheRead "items::/api/items?limit=abc", .storeRead] ∧
    (handleGet qpW (init false (some itemsFive))
        "/api/items?limit=abc" 0 "T").1
      = .fail ⟨400, "INVALID_LIMIT"⟩ :=
  ⟨by decide, by decide⟩

/-- C1 amended: in every reachable state whose data file is present, a GET
/items carrying a malformed (non-empty) limit fails with 400 INVALID_LIMIT
and performs no cache write, but only after one cache read and one
backing-store read: its effect trace is exactly cache read then store
read. -/
theorem C1_malformed_limit_late_validation (qp : String → Query) (b0 : Bool)
    (store0 : Option (List Item)) (reqs : List Req) (url : String)
    (now : Nat) (ts : String) (data : List Item) (l : String)
    (hstore : (run qp (init b0 store0) reqs).store = some data)
    (hl : (qp url).limit = some l) (hne : l ≠ "")
    (hbad : jsParseInt l = none ∨ ∃ n, jsParseInt l = some n ∧ n < 1) :
    (handleGet qp (run qp (init b0 store0) reqs) url now ts).1
      = .fail ⟨400, "INVALID_LIMIT"⟩ ∧
    (handleGet qp (run qp (init b0 store0) reqs) url now ts).2.2
      = [.cacheRead ("items::" ++ url), .storeRead] :=
  handleGet_bad_limit qp (run_inv qp reqs (init_inv qp b0 store0)) hstore hl
    hne hbad

theorem C1_malformed_limit_late_validation_witness :
    (handleGet qpW (run qpW (init false (some itemsFive)) [])
        "/api/items?limit=abc" 0 "T").1
      = .fail ⟨400, "INVALID_LIMIT"⟩ ∧
    (handleGet qpW (run qpW (init false (some itemsFive)) [])
        "/api/items?limit=abc" 0 "T").2.2
      = [.cacheRead ("items::" ++ "/api/items?limit=abc"), .storeRead] :=
  C1_malformed_limit_late_validation qpW false (some itemsFive) []
    "/api/items?limit=abc" 0 "T" itemsFive "abc" rfl (by decide) (by decide)
    (Or.inl (by decide))

/-- C6: in every reachable state whose data file is present, a GET /items
whose (non-empty) limit parameter does not parse to an integer ≥ 1 fails
with a 400 response carrying error code INVALID_LIMIT, and one whose limit
parses to n ≥ 1 succeeds with at most n items in the body. -/
theorem C6_limit_validation (qp : String → Query) (b0 : Bool)
    (store0 : Option (List Item)) (reqs : List Req) (url : String)
    (now : Nat) (ts : String) (data : List Item)
    (hstore : (run qp (init b0 store0) reqs).store = some data) :
    (∀ l, (qp url).limit = some l → l ≠ "" →
      (jsParseInt l = none ∨ ∃ n, jsParseInt l = some n ∧ n < 1) →
      (handleGet qp (run qp (init b0 store0) reqs) url now ts).1
        = .fail ⟨400, "INVALID_LIMIT"⟩) ∧
    (∀ l n, (qp url).limit = some l → jsParseInt l = some n → 1 ≤ n →
      ∃ r, (handleGet qp (run qp (init b0 store0) reqs) url now ts).1
        = .listOk r ∧ r.items.length ≤ n.toNat) := by
  have hinv := run_inv qp reqs (init_inv qp b0 store0)
  constructor
  · intro l hl hne hbad
    exact (handleGet_bad_limit qp hinv hstore hl hne hbad).1
  · intro l n hl hp h1
    unfold handleGet
    split
    next resp c1 heq =>
      obtain ⟨d, t, hok⟩ := hit_listItems qp hinv (by rw [heq])
      exact ⟨resp, rfl, listItems_ok_limit_le hl hp hok⟩
    next c1 heq =>
      split
      next hnone => rw [hstore] at hnone; cases hnone
      next data2 hst =>
        split
        next e he =>
          rw [listItems_good_limit data2 ts hl hp h1] at he
          cases he
        next resp hok =>
          exact ⟨resp, rfl, listItems_ok_limit_le hl hp hok⟩

theorem C6_limit_validation_witness :
    ((handleGet qpW (run qpW (init false (some itemsFive)) [])
        "/api/items?limit=0" 5 "T").1 = .fail ⟨400, "INVALID_LIMIT"⟩) ∧
    (∃ r, (handleGet qpW (run qpW (init false (some itemsFive)) [])
        "/api/items?limit=2" 5 "T").1 = .listOk r ∧
        r.items.length ≤ (2 : Int).toNat) ∧
    ((handleGet qpW (init false (some itemsFive))
        "/api/items?limit=2" 5 "T").1
      = .listOk ⟨[itemLaptop, itemLamp], 2, "T"⟩) :=
  ⟨(C6_limit_validation qpW false (some itemsFive) [] "/api/items?limit=0"
      5 "T" itemsFive rfl).1 "0" (by decide) (by decide)
      (Or.inr ⟨0, by decide, by decide⟩),
   (C6_limit_validation qpW false (some itemsFive) [] "/api/items?limit=2"
      5 "T" itemsFive rfl).2 "2" 2 (by decide) (by decide) (by decide),
   by decide⟩

/-- C10: in every reachable state, every 200 response of GET /items has
`total` equal to the length of its (filtered, truncated) item list — for
cache hits because only such responses are ever cached, for misses because
the handler computes `total: results.length` after truncation. -/
theorem C10_total_is_returned_length (qp : String → Query) (b0 : Bool)
    (store0 : Option (List Item)) (reqs : List Req) (url : String)
    (now : Nat) (ts : String) (r : Response)
    (h : (handleGet qp (run qp (init b0 store0) reqs) url now ts).1
      = .listOk r) :
    r.total = r.items.length := by
  have hinv := run_inv qp reqs (init_inv qp b0 store0)
  unfold handleGet at h
  split at h
  next resp c1 heq =>
    obtain ⟨d, t, hok⟩ := hit_listItems qp hinv (by rw [heq])
    replace h : Out.listOk resp = Out.listOk r := h
    have hr : resp = r := by injection h
    rw [hr] at hok
    exact listItems_ok_total hok
  next c1 heq =>
    split at h
    next => cases h
    next data2 hst =>
      split at h
      next e he => cases h
      next resp hok =>
        replace h : Out.listOk resp = Out.listOk r := h
        have hr : resp = r := by injection h
        rw [hr] at hok
        exact listItems_ok_total hok

theorem C10_total_is_returned_length_witness :
    ∃ r, (handleGet qpW (run qpW (init false (some itemsFive)) [])
        "/api/items?limit=2" 5 "T").1 = .listOk r ∧
      r.total = r.items.length :=
  ⟨⟨[itemLaptop, itemLamp], 2, "T"⟩, by decide,
   C10_total_is_returned_length qpW false (some itemsFive) []
     "/api/items?limit=2" 5 "T" ⟨[itemLaptop, itemLamp], 2, "T"⟩ (by decide)⟩

/-- C8: on a cache miss with a present, non-empty (after trimming) search
term and no limit parameter, the response lists exactly the loaded items
whose name or (non-null) category contains the trimmed term as a
case-insensitive substring. -/
theorem C8_search_substring (qp : String → Query) (s : Sys) (url : String)
    (now : Nat) (ts : String) (q : String) (data : List Item)
    (hmiss : (cacheGetB s.cache now ("items::" ++ url)).1 = none)
    (hstore : s.store = some data) (hq : (qp url).q = some q)
    (hne : q ≠ "") (hnt : jsTrim q ≠ "") (hlim : (qp url).limit = none) :
    (handleGet qp s url now ts).1
      = .listOk ⟨data.filter (matchesSearch (jsToLower (jsTrim q))),
          (data.filter (matchesSearch (jsToLower (jsTrim q)))).length,
          ts⟩ := by
  have hsf : searchFilter (qp url).q data
      = data.filter (matchesSearch (jsToLower (jsTrim q))) := by
    rw [hq]; exact searchFilter_some data hne hnt
  have hli := listItems_no_limit data ts hlim
  rw [hsf] at hli
  unfold handleGet
  split
  next resp c1 heq =>
    rw [heq] at hmiss
    cases hmiss
  next c1 heq =>
    split
    next hnone => rw [hstore] at hnone; cases hnone
    next data2 hst =>
      have hd : data = data2 := by
        rw [hstore] at hst; injection hst
      subst hd
      split
      next e he => rw [hli] at he; cases he
      next resp hok =>
        rw [hli] at hok
        injection hok with h2
        rw [h2]

theorem C8_search_substring_witness :
    ((handleGet qpW (init false (some itemsFive)) "/api/items?q=lap" 5 "T").1
      = .listOk ⟨itemsFive.filter (matchesSearch (jsToLower (jsTrim "lap"))),
          (itemsFive.filter (matchesSearch (jsToLower (jsTrim "lap")))).length,
          "T"⟩) ∧
    itemsFive.filter (matchesSearch (jsToLower (jsTrim "lap")))
      = [itemLaptop] :=
  ⟨C8_search_substring qpW (init false (some itemsFive)) "/api/items?q=lap"
      5 "T" "lap" itemsFive (by decide) rfl (by decide) (by decide)
      (by decide) (by decide),
   by decide⟩

/-- The active cache tier holds no listing key (no key starting with
`"items::"`). -/
def activeClean (c : SysCache) : Prop :=
  (c.avail = true → ∀ p ∈ c.remote, strStartsWith p.1 "items::" = false) ∧
  (c.avail = false → ∀ p ∈ c.mem, strStartsWith p.1 "items::" = false)

theorem invalidateB_items_clean (rkOk rdOk : Bool) (c : SysCache) :
    (rkOk = true → rdOk = true →
      activeClean (cacheInvalidateB rkOk rdOk c "items::*")) ∧
    (c.avail = false →
      activeClean (cacheInvalidateB rkOk rdOk c "items::*")) := by
  have hw : strEndsWith "items::*" "*" = true := by decide
  have hd : strDropLast "items::*" = "items::" := by decide
  obtain ⟨av, rem, mem⟩ := c
  cases av with
  | true =>
    constructor
    · intro hrk hrd
      subst hrk; subst hrd
      by_cases hlen : (rem.filter
          (fun p => strStartsWith p.1 (strDropLast "items::*"))).length > 0
      · refine ⟨?_, ?_⟩
        · intro _ p hp
          have hp2 : p ∈ rem ∧
              strStartsWith p.1 (strDropLast "items::*") = false := by
            simpa [cacheInvalidateB, hw, hlen] using hp
          have h3 := hp2.2
          rw [hd] at h3
          exact h3
        · intro hf
          simp [cacheInvalidateB, hw, hlen] at hf
      · have h0 : (rem.filter
            (fun p => strStartsWith p.1 (strDropLast "items::*"))).length
              = 0 := by omega
        have hnil := List.length_eq_zero.mp h0
        refine ⟨?_, ?_⟩
        · intro _ p hp
          have hpm : p ∈ rem := by
            simpa [cacheInvalidateB, hw, hlen] using hp
          cases hb : strStartsWith p.1 "items::" with
          | false => rfl
          | true =>
            exfalso
            have hyes : strStartsWith p.1 (strDropLast "items::*") = true := by
              rw [hd]; exact hb
            have hmemf : p ∈ rem.filter
                (fun q => strStartsWith q.1 (strDropLast "items::*")) :=
              List.mem_filter.mpr ⟨hpm, hyes⟩
            rw [hnil] at hmemf
            simp at hmemf
        · intro hf
          simp [cacheInvalidateB, hw, hlen] at hf
    · intro hf
      simp at hf
  | false =>
    have hclean : activeClean
        (cacheInvalidateB rkOk rdOk ⟨false, rem, mem⟩ "items::*") := by
      refine ⟨?_, ?_⟩
      · intro ht
        simp [cacheInvalidateB, hw] at ht
      · intro _ p hp
        have hp2 : p ∈ mem ∧
            strStartsWith p.1 (strDropLast "items::*") = false := by
          simpa [cacheInvalidateB, hw] using hp
        have h3 := hp2.2
        rw [hd] at h3
        exact h3
    exact ⟨fun _ _ => hclean, fun _ => hclean⟩

/-- C4 counterexample input: the primary tier is available and already
holds one listing entry. -/
def cacheRemoteCex : SysCache :=
  ⟨true, [("items::/api/items", ⟨[], 0, "x"⟩)], []⟩

/-- C4 counterexample: with the primary tier available and holding the
listing entry `"items::/api/items"`, a POST whose `invalidate("items::*")`
hits a swallowed `client.del` transport error still succeeds (201 created),
yet the entry remains in the active (remote) tier of the post-state.  The
claim asserts no `items::` key survives a successful mutation; this run
refutes it. -/
theorem C4_counterexample :
    (handlePost true false ⟨some itemsFive, cacheRemoteCex⟩
        ⟨some "New Lamp", some "Furniture", none, false⟩ "T").1
      = .created ⟨6, "New Lamp", some "Furniture", none, "T", none⟩ ∧
    ((handlePost true false ⟨some itemsFive, cacheRemoteCex⟩
        ⟨some "New Lamp", some "Furniture", none, false⟩ "T").2.1).cache.avail
      = true ∧
    ((handlePost true false ⟨some itemsFive, cacheRemoteCex⟩
        ⟨some "New Lamp", some "Furniture", none, false⟩ "T").2.1).cache.remote
      = [("items::/api/items", ⟨[], 0, "x"⟩)] ∧
    strStartsWith "items::/api/items" "items::" = true :=
  ⟨by decide, by decide, by decide, by decide⟩

/-- C4 amended: a successful create, update or delete persists the change
and then issues `invalidate("items::*")` before responding — its effect
trace is exactly store read, store write, cache invalidation.  When the
invalidation's remote calls do not fail (and always on the memory tier,
which cannot throw), the post-state active cache tier holds no entry whose
key starts with `"items::"`; a swallowed remote transport error can leave
such entries behind. -/
theorem C4_mutations_invalidate (rkOk rdOk : Bool) (s : Sys) (b : PostBody)
    (ub : UpdateBody) (pid did : String) (ts : String) :
    (∀ it s2 tr, handlePost rkOk rdOk s b ts = (.created it, s2, tr) →
      tr = [.storeRead, .storeWrite, .cacheInval "items::*"] ∧
      (rkOk = true → rdOk = true → activeClean s2.cache) ∧
      (s.cache.avail = false → activeClean s2.cache)) ∧
    (∀ it s2 tr, handlePut rkOk rdOk s pid ub ts = (.updated it, s2, tr) →
      tr = [.storeRead, .storeWrite, .cacheInval "items::*"] ∧
      (rkOk = true → rdOk = true → activeClean s2.cache) ∧
      (s.cache.avail = false → activeClean s2.cache)) ∧
    (∀ it s2 tr, handleDelete rkOk rdOk s did ts = (.deleted it, s2, tr) →
      tr = [.storeRead, .storeWrite, .cacheInval "items::*"] ∧
      (rkOk = true → rdOk = true → activeClean s2.cache) ∧
      (s.cache.avail = false → activeClean s2.cache)) := by
  refine ⟨?_, ?_, ?_⟩ <;> intro it s2 tr h
  · unfold handlePost at h
    split at h
    · simp at h
    · split at h
      · simp at h
      · split at h
        · simp at h
        · split at h
          · simp at h
          · have h3 : ([.storeRead, .storeWrite, .cacheInval "items::*"]
                : List Effect) = tr :=
              congrArg (fun x => x.2.2) h
            have h2 : cacheInvalidateB rkOk rdOk s.cache "items::*"
                = s2.cache :=
              congrArg (fun x => x.2.1.cache) h
            refine ⟨h3.symm, ?_, ?_⟩
            · intro hrk hrd
              rw [← h2]
              exact (invalidateB_items_clean rkOk rdOk s.cache).1 hrk hrd
            · intro hf
              rw [← h2]
              exact (invalidateB_items_clean rkOk rdOk s.cache).2 hf
  · unfold handlePut at h
    split at h
    · simp at h
    · split at h
      · simp at h
      · split at h
        · simp at h
        · split at h
          · simp at h
          · split at h
            · simp at h
            · have h3 : ([.storeRead, .storeWrite, .cacheInval "items::*"]
                  : List Effect) = tr :=
                congrArg (fun x => x.2.2) h
              have h2 : cacheInvalidateB rkOk rdOk s.cache "items::*"
                  = s2.cache :=
                congrArg (fun x => x.2.1.cache) h
              refine ⟨h3.symm, ?_, ?_⟩
              · intro hrk hrd
                rw [← h2]
                exact (invalidateB_items_clean rkOk rdOk s.cache).1 hrk hrd
              · intro hf
                rw [← h2]
                exact (invalidateB_items_clean rkOk rdOk s.cache).2 hf
  · unfold handleDelete at h
    split at h
    · simp at h
    · split at h
      · simp at h
      · split at h
        · simp at h
        · split at h
          · simp at h
          · have h3 : ([.storeRead, .storeWrite, .cacheInval "items::*"]
                : List Effect) = tr :=
              congrArg (fun x => x.2.2) h
            have h2 : cacheInvalidateB rkOk rdOk s.cache "items::*"
                = s2.cache :=
              congrArg (fun x => x.2.1.cache) h
            refine ⟨h3.symm, ?_, ?_⟩
            · intro hrk hrd
              rw [← h2]
              exact (invalidateB_items_clean rkOk rdOk s.cache).1 hrk hrd
            · intro hf
              rw [← h2]
              exact (invalidateB_items_clean rkOk rdOk s.cache).2 hf

/-- A cache whose memory tier holds one listing entry, used to exhibit the
post-mutation purge. -/
def cacheW : SysCache :=
  ⟨false, [], [("items::/api/items?q=lamp", ⟨⟨[], 0, "x"⟩, 99999⟩)]⟩

/-- The item POST creates from `{name: "New Lamp", category: "Furniture"}`
against the five-item collection at timestamp "T". -/
def newItemW : Item := ⟨6, "New Lamp", some "Furniture", none, "T", none⟩

theorem C4_mutations_invalidate_witness :
    ([.storeRead, .storeWrite, .cacheInval "items::*"] : List Effect)
      = [.storeRead, .storeWrite, .cacheInval "items::*"] ∧
    ((true : Bool) = true → (true : Bool) = true →
      activeClean
        (Sys.mk (some (itemsFive ++ [newItemW]))
          (cacheInvalidateB true true cacheW "items::*")).cache) ∧
    ((Sys.mk (some itemsFive) cacheW).cache.avail = false →
      activeClean
        (Sys.mk (some (itemsFive ++ [newItemW]))
          (cacheInvalidateB true true cacheW "items::*")).cache) :=
  (C4_mutations_invalidate true true ⟨some itemsFive, cacheW⟩
      ⟨some "New Lamp", some "Furniture", none, false⟩
      ⟨none, some "Zed", none, none, none, none, false⟩ "1" "1" "T").1
    newItemW
    ⟨some (itemsFive ++ [newItemW]),
      cacheInvalidateB true true cacheW "items::*"⟩
    [.storeRead, .storeWrite, .cacheInval "items::*"]
    (by decide)

/-- A JavaScript object as a partial map from field name to value (`none` is
an absent field). -/
def JObj (α : Type) : Type := String → Option α

/-- Object spread `{ ...a, ...b }`: a field present in `b` wins, any other
field keeps its value from `a`. -/
def jsSpread {α : Type} (a b : JObj α) : JObj α := fun k =>
  match b k with
  | some v => some v
  | none => a k

/-- The updated item built by the PUT handler (lines 493-497):
`{ ...data[itemIndex], ...updateData, updatedAt: new Date().toISOString() }` —
the trailing literal field wins over both spreads. -/
def putMergedItem {α : Type} (old upd : JObj α) (ts : α) : JObj α := fun k =>
  if k = "updatedAt" then some ts else jsSpread old upd k

theorem updateFirst_some {i : Int} {f : Item → Item} {l : List Item}
    {u : Item} {l2 : List Item} (h : updateFirst i f l = some (u, l2)) :
    ∃ old, old ∈ l ∧ old.id = i ∧ u = f old := by
  induction l generalizing u l2 with
  | nil => simp [updateFirst] at h
  | cons it rest ih =>
    cases hb : (it.id == i) with
    | true =>
      have hu : f it = u ∧ f it :: rest = l2 := by
        simpa [updateFirst, hb] using h
      exact ⟨it, List.mem_cons_self _ _, by simpa using hb, hu.1.symm⟩
    | false =>
      cases hr : updateFirst i f rest with
      | none => simp [updateFirst, hb, hr] at h
      | some pair =>
        obtain ⟨u2, l3⟩ := pair
        have hu : u2 = u ∧ it :: l3 = l2 := by
          simpa [updateFirst, hb, hr] using h
        obtain ⟨old, hm, hid, hfo⟩ := ih (by rw [hr])
        exact ⟨old, List.mem_cons_of_mem _ hm, hid, by rw [← hu.1]; exact hfo⟩

/-- C9: the stored item produced by a successful PUT is the spread of the
old item under the request body with `updatedAt` regenerated.  Over
arbitrary field maps: `updatedAt` takes the fresh timestamp, any other field
absent from the body keeps the stored value, and any other field present in
the body — `id` included — takes the body's value.  At the handler level:
every successful PUT stores `mergeItem old body ts` for some stored item
`old` of the collection. -/
theorem C9_put_is_spread_with_fresh_updatedAt {α : Type} (old upd : JObj α)
    (ts : α) :
    (putMergedItem old upd ts "updatedAt" = some ts ∧
     ∀ k, k ≠ "updatedAt" →
       (upd k = none → putMergedItem old upd ts k = old k) ∧
       (∀ v, upd k = some v → putMergedItem old upd ts k = some v)) ∧
    (∀ (rkOk rdOk : Bool) (s : Sys) (idStr : String) (b : UpdateBody)
       (ts2 : String) (it : Item) (s2 : Sys) (tr : List Effect)
       (data : List Item),
      s.store = some data →
      handlePut rkOk rdOk s idStr b ts2 = (.updated it, s2, tr) →
      ∃ olditem, olditem ∈ data ∧ it = mergeItem olditem b ts2) := by
  constructor
  · refine ⟨by simp [putMergedItem], ?_⟩
    intro k hk
    constructor
    · intro h; simp [putMergedItem, jsSpread, hk, h]
    · intro v h; simp [putMergedItem, jsSpread, hk, h]
  · intro rkOk rdOk s idStr b ts2 it s2 tr data hstore h
    unfold handlePut at h
    split at h
    next => simp at h
    next i hparse =>
      split at h
      · simp at h
      · split at h
        · simp at h
        · split at h
          next hnone => simp at h
          next data3 hst =>
            split at h
            next => simp at h
            next u data2 hup =>
              have hit : Out.updated u = Out.updated it :=
                congrArg (fun x => x.1) h
              have hu : u = it := by injection hit
              have hd : data3 = data := by
                rw [hstore] at hst
                injection hst with h2
                exact h2.symm
              obtain ⟨old, hm, hid, hfo⟩ := updateFirst_some hup
              refine ⟨old, by rw [← hd]; exact hm, ?_⟩
              rw [← hu]; exact hfo

/-- The item stored by `PUT /api/items/1` with body
`{id: 9, name: "Laptop X"}` at timestamp "T2". -/
def updatedItemW : Item :=
  ⟨9, "Laptop X", some "Electronics", none, "2025-01-01", some "T2"⟩

theorem C9_put_is_spread_with_fresh_updatedAt_witness :
    (putMergedItem
        (fun k => if k = "id" then some 1
          else if k = "name" then some 10 else none)
        (fun k => if k = "id" then some 9 else none) (5 : Nat) "id"
      = some 9) ∧
    (putMergedItem
        (fun k => if k = "id" then some 1
          else if k = "name" then some 10 else none)
        (fun k => if k = "id" then some 9 else none) (5 : Nat) "name"
      = (fun k => if k = "id" then some 1
          else if k = "name" then some 10 else none) "name") ∧
    (putMergedItem
        (fun k => if k = "id" then some 1
          else if k = "name" then some 10 else none)
        (fun k => if k = "id" then some 9 else none) (5 : Nat) "updatedAt"
      = some 5) ∧
    (∃ olditem, olditem ∈ itemsFive ∧
      updatedItemW = mergeItem olditem
        ⟨some 9, some "Laptop X", none, none, none, none, false⟩ "T2") :=
  ⟨((C9_put_is_spread_with_fresh_updatedAt
        (fun k => if k = "id" then some 1
          else if k = "name" then some 10 else none)
        (fun k => if k = "id" then some 9 else none) (5 : Nat)).1.2 "id"
      (by decide)).2 9 rfl,
   ((C9_put_is_spread_with_fresh_updatedAt
        (fun k => if k = "id" then some 1
          else if k = "name" then some 10 else none)
        (fun k => if k = "id" then some 9 else none) (5 : Nat)).1.2 "name"
      (by decide)).1 rfl,
   (C9_put_is_spread_with_fresh_updatedAt
        (fun k => if k = "id" then some 1
          else if k = "name" then some 10 else none)
        (fun k => if k = "id" then some 9 else none) (5 : Nat)).1.1,
   (C9_put_is_spread_with_fresh_updatedAt
        (fun k => if k = "id" then some 1
          else if k = "name" then some 10 else none)
        (fun k => if k = "id" then some 9 else none) (5 : Nat)).2
     true true ⟨some itemsFive, ⟨false, [], []⟩⟩ "1"
     ⟨some 9, some "Laptop X", none, none, none, none, false⟩ "T2"
     updatedItemW
     ⟨some (updatedItemW ::
        [itemLamp,
         ⟨3, "Chair", some "Furniture", none, "2025-01-01", none⟩,
         ⟨4, "Monitor", some "Electronics", none, "2025-01-01", none⟩,
         ⟨5, "Mouse", some "Electronics", none, "2025-01-01", none⟩]),
      cacheInvalidateB true true ⟨false, [], []⟩ "items::*"⟩
     [.storeRead, .storeWrite, .cacheInval "items::*"] itemsFive rfl
     (by decide)⟩

end ItemsApi
